import Mathlib

/-!
Verification of the embedding lifecycle and cooperative event-loop contract of
the `node::lib` layer (src/src/node_lib.h).  The repository ships only the
interface declarations and a test; the behaviour of each operation is therefore
modelled from the specification's words (section 4 of spec.md), as a shallow
state-machine embedding.  Opaque engine data (isolate/environment pointers,
event callbacks, script values) is represented by `Nat` identifiers; a null
pointer is `Option.none`.
-/

namespace NodeLib

/-- Modelled from the spec: the Lifecycle Controller's two states,
`Uninitialized → Running → Uninitialized` (re-initialization after full
teardown is permitted). -/
inductive LifecycleState
  | Uninitialized
  | Running
deriving DecidableEq

/-- Modelled from the spec: the process-wide engine state.  `env`/`iso` are the
Engine Handle's environment and isolate (none = null pointer); `pending` is the
Event Loop Driver's queue of pending callbacks; `loopRunning` and
`stopRequested` are the Event Loop State flags; `modules` is the name-keyed
module registry and `globals` the separate global-binding table; `exitCode` is
the status propagated from unfinished work (0 in a clean session). -/
structure Engine where
  lifecycle : LifecycleState
  env : Option Nat
  iso : Option Nat
  pending : List Nat
  loopRunning : Bool
  stopRequested : Bool
  modules : List String
  globals : List String
  exitCode : Int
deriving DecidableEq

/-- Modelled from the spec: the process state before any `Initialize` call —
no Engine Handle, empty queue, all flags down. -/
def initialEngine : Engine :=
  { lifecycle := LifecycleState.Uninitialized, env := none, iso := none,
    pending := [], loopRunning := false, stopRequested := false,
    modules := [], globals := [], exitCode := 0 }

/-- Modelled from the spec: `internal::environment` — returns the
`node::Environment` pointer if the engine is initialized already. -/
def environment (s : Engine) : Option Nat := s.env

/-- Modelled from the spec: `internal::isolate` — returns the `v8::Isolate`
pointer if the engine is initialized already. -/
def isolate (s : Engine) : Option Nat := s.iso

/-- Modelled from the spec: `EventLoopIsRunning` — true if the event loop is
executed by `RunEventLoop`. -/
def EventLoopIsRunning (s : Engine) : Bool := s.loopRunning

/-- Modelled from the spec: `Initialize` — transitions
`Uninitialized → Running`, bootstrapping the engine: the Engine Handle (its
environment and isolate) becomes valid, all other process-wide state becomes
fresh.  Calling while already `Running` is an idempotent no-op. -/
def InitializeEngine (s : Engine) : Engine :=
  if s.lifecycle = LifecycleState.Running then s
  else
    { lifecycle := LifecycleState.Running, env := some 1, iso := some 1,
      pending := [], loopRunning := false, stopRequested := false,
      modules := [], globals := [], exitCode := 0 }

/-- Modelled from the spec: `Deinitialize` — transitions
`Running → Uninitialized`: drains pending work, releases the Engine Handle and
its owned resources, and returns the propagated status (0 = clean shutdown).
Calling while already `Uninitialized` is a no-op returning 0. -/
def DeinitializeEngine (s : Engine) : Engine × Int :=
  if s.lifecycle = LifecycleState.Uninitialized then (s, 0)
  else (initialEngine, s.exitCode)

/-- A lifecycle call made by the host: `Initialize` or `Deinitialize`. -/
inductive LifeOp
  | opInit
  | opDeinit
deriving DecidableEq

/-- Apply one lifecycle call to the engine state. -/
def applyOp (s : Engine) : LifeOp → Engine
  | LifeOp.opInit => InitializeEngine s
  | LifeOp.opDeinit => (DeinitializeEngine s).1

/-- Apply a sequence of lifecycle calls, left to right. -/
def applyOps (s : Engine) : List LifeOp → Engine
  | [] => s
  | op :: rest => applyOps (applyOp s op) rest

/-- The Engine Handle invariant of spec section 3: the handle exists (both
accessors non-null) exactly when the Lifecycle Controller state is `Running`. -/
def handleInv (s : Engine) : Prop :=
  (s.env = none ↔ s.lifecycle = LifecycleState.Uninitialized) ∧
  (s.iso = none ↔ s.lifecycle = LifecycleState.Uninitialized)

theorem handleInv_initial : handleInv initialEngine := by
  constructor <;> simp [initialEngine]

theorem handleInv_applyOp (s : Engine) (op : LifeOp) (h : handleInv s) :
    handleInv (applyOp s op) := by
  cases op with
  | opInit =>
    by_cases hr : s.lifecycle = LifecycleState.Running
    · simpa [applyOp, InitializeEngine, hr] using h
    · simp [applyOp, InitializeEngine, hr, handleInv]
  | opDeinit =>
    by_cases hu : s.lifecycle = LifecycleState.Uninitialized
    · simpa [applyOp, DeinitializeEngine, hu] using h
    · simp [applyOp, DeinitializeEngine, hu, handleInv, initialEngine]

theorem handleInv_applyOps (ops : List LifeOp) :
    ∀ s : Engine, handleInv s → handleInv (applyOps s ops) := by
  induction ops with
  | nil => intro s h; exact h
  | cons op rest ih => intro s h; exact ih (applyOp s op) (handleInv_applyOp s op h)

theorem lifecycle_two_cases (s : Engine) :
    s.lifecycle = LifecycleState.Uninitialized ∨ s.lifecycle = LifecycleState.Running := by
  cases h : s.lifecycle
  · exact Or.inl rfl
  · exact Or.inr rfl

theorem handleInv_isSome (s : Engine) (h : handleInv s) :
    ((environment s).isSome ↔ s.lifecycle = LifecycleState.Running) ∧
    ((isolate s).isSome ↔ s.lifecycle = LifecycleState.Running) := by
  rcases h with ⟨he, hi⟩
  rcases lifecycle_two_cases s with hu | hr
  · constructor
    · simp [environment, he.2 hu, hu]
    · simp [isolate, hi.2 hu, hu]
  · have he' : s.env ≠ none := fun h0 => by simp [he.1 h0] at hr
    have hi' : s.iso ≠ none := fun h0 => by simp [hi.1 h0] at hr
    constructor
    · simp [environment, hr, Option.isSome_iff_ne_none, he']
    · simp [isolate, hr, Option.isSome_iff_ne_none, hi']

/-- Claim C1: for every sequence of Initialize/Deinitialize calls, the Engine
Handle accessors (`internal::environment` and `internal::isolate`) yield a null
result exactly when the Lifecycle Controller state is `Uninitialized` and a
non-null instance exactly when it is `Running`; in particular they are null
before the first Initialize, non-null right after an Initialize, and null again
right after a Deinitialize. -/
theorem C1_handle_tracks_lifecycle (ops : List LifeOp) :
    (environment (applyOps initialEngine ops) = none ↔
      (applyOps initialEngine ops).lifecycle = LifecycleState.Uninitialized) ∧
    (isolate (applyOps initialEngine ops) = none ↔
      (applyOps initialEngine ops).lifecycle = LifecycleState.Uninitialized) ∧
    ((environment (applyOps initialEngine ops)).isSome ↔
      (applyOps initialEngine ops).lifecycle = LifecycleState.Running) ∧
    ((isolate (applyOps initialEngine ops)).isSome ↔
      (applyOps initialEngine ops).lifecycle = LifecycleState.Running) ∧
    environment initialEngine = none ∧ isolate initialEngine = none ∧
    (environment (applyOps initialEngine (ops ++ [LifeOp.opInit]))).isSome = true ∧
    (isolate (applyOps initialEngine (ops ++ [LifeOp.opInit]))).isSome = true ∧
    environment (applyOps initialEngine (ops ++ [LifeOp.opDeinit])) = none ∧
    isolate (applyOps initialEngine (ops ++ [LifeOp.opDeinit])) = none := by
  have hinv : handleInv (applyOps initialEngine ops) :=
    handleInv_applyOps ops initialEngine handleInv_initial
  have hsome := handleInv_isSome _ hinv
  have happ : ∀ (l : List LifeOp) (s : Engine) (op : LifeOp),
      applyOps s (l ++ [op]) = applyOp (applyOps s l) op := by
    intro l
    induction l with
    | nil => intro s op; rfl
    | cons x xs ih => intro s op; simpa [applyOps] using ih (applyOp s x) op
  refine ⟨hinv.1, hinv.2, hsome.1, hsome.2, rfl, rfl, ?_, ?_, ?_, ?_⟩
  · rw [happ]
    by_cases hr : (applyOps initialEngine ops).lifecycle = LifecycleState.Running
    · have hstep : applyOp (applyOps initialEngine ops) LifeOp.opInit =
          applyOps initialEngine ops := by
        simp [applyOp, InitializeEngine, hr]
      rw [hstep]
      exact hsome.1.2 hr
    · simp [applyOp, InitializeEngine, hr, environment]
  · rw [happ]
    by_cases hr : (applyOps initialEngine ops).lifecycle = LifecycleState.Running
    · have hstep : applyOp (applyOps initialEngine ops) LifeOp.opInit =
          applyOps initialEngine ops := by
        simp [applyOp, InitializeEngine, hr]
      rw [hstep]
      exact hsome.2.2 hr
    · simp [applyOp, InitializeEngine, hr, isolate]
  · rw [happ]
    by_cases hu : (applyOps initialEngine ops).lifecycle = LifecycleState.Uninitialized
    · have hstep : applyOp (applyOps initialEngine ops) LifeOp.opDeinit =
          applyOps initialEngine ops := by
        simp [applyOp, DeinitializeEngine, hu]
      rw [hstep]
      exact hinv.1.2 hu
    · simp only [applyOp, DeinitializeEngine, if_neg hu]
      rfl
  · rw [happ]
    by_cases hu : (applyOps initialEngine ops).lifecycle = LifecycleState.Uninitialized
    · have hstep : applyOp (applyOps initialEngine ops) LifeOp.opDeinit =
          applyOps initialEngine ops := by
        simp [applyOp, DeinitializeEngine, hu]
      rw [hstep]
      exact hinv.2.2 hu
    · simp only [applyOp, DeinitializeEngine, if_neg hu]
      rfl

/-- Modelled from the spec: `ProcessEvents` — runs exactly one pass of the
pending work already queued.  Each processed event `e` may itself enqueue
further callbacks, given by the engine collaborator as `spawn e`.  Returns the
new state, `true` iff further work remains pending after this pass, and the
list of callbacks invoked during the pass.  Non-blocking: with an empty queue
nothing is invoked and the state is unchanged. -/
def ProcessEvents (spawn : Nat → List Nat) (s : Engine) : Engine × Bool × List Nat :=
  let invoked := s.pending
  let next := invoked.flatMap spawn
  ({ s with pending := next }, !next.isEmpty, invoked)

/-- Modelled from the spec: `StopEventLoop` — asynchronously requests
termination by setting `stop_requested`; nothing else changes, and the call
does not wait for the loop to stop. -/
def StopEventLoop (s : Engine) : Engine :=
  { s with stopRequested := true }

/-- Observable events of one `RunEventLoop` execution: `processed n evs` is
pass `n` draining the queued events `evs`; `tick n st` is the host tick
callback invoked for pass `n` with the engine in state `st` at that moment. -/
inductive TraceEv
  | processed : Nat → List Nat → TraceEv
  | tick : Nat → Engine → TraceEv
deriving DecidableEq

/-- Modelled from the spec: one iteration of `RunEventLoop`'s body after the
events of the pass were processed — the host tick callback runs, and (modelled
by the `host` choice function) may call `StopEventLoop`. -/
def loopIteration (spawn : Nat → List Nat) (host : Nat → Bool) (n : Nat) (s : Engine) :
    Engine :=
  if host n then StopEventLoop (ProcessEvents spawn s).1 else (ProcessEvents spawn s).1

/-- Modelled from the spec: the body of `RunEventLoop`, with explicit fuel so
the (possibly endless) loop is a total function; `none` means the loop was
still going when the fuel ran out.  At the top of each iteration the driver
observes `stop_requested` (and whether events keep coming); on exit it resets
both Event Loop State flags before returning.  Each pass processes pending
events and then invokes the host tick callback once. -/
def runLoopAux (spawn : Nat → List Nat) (host : Nat → Bool) :
    Nat → Nat → Engine → Option (Engine × List TraceEv)
  | 0, _, _ => none
  | fuel + 1, n, s =>
    if s.stopRequested || s.pending.isEmpty then
      some ({ s with loopRunning := false, stopRequested := false }, [])
    else
      match runLoopAux spawn host fuel (n + 1) (loopIteration spawn host n s) with
      | none => none
      | some pr =>
          some (pr.1, TraceEv.processed n (ProcessEvents spawn s).2.2 ::
                      TraceEv.tick n (ProcessEvents spawn s).1 :: pr.2)

/-- Modelled from the spec: `RunEventLoop` — marks the loop as running and
drives passes until `StopEventLoop` has been observed or events stop coming,
returning the final state and the trace of passes and tick invocations. -/
def RunEventLoop (spawn : Nat → List Nat) (host : Nat → Bool) (fuel : Nat) (s : Engine) :
    Option (Engine × List TraceEv) :=
  runLoopAux spawn host fuel 0 { s with loopRunning := true }

/-- Claim C2: with an empty pending queue, `ProcessEvents` returns `false`,
invokes no callback and leaves the state untouched (it returns at once with
nothing done); and whenever it returns `true`, work is still pending after the
pass (and conversely). -/
theorem C2_processEvents_empty_queue (spawn : Nat → List Nat) (s : Engine) :
    (s.pending = [] → ProcessEvents spawn s = (s, false, [])) ∧
    ((ProcessEvents spawn s).2.1 = true ↔ (ProcessEvents spawn s).1.pending ≠ []) := by
  constructor
  · intro h
    cases s
    simp_all [ProcessEvents]
  · simp [ProcessEvents, List.isEmpty_iff]

/-- Concrete instantiation of `C2_processEvents_empty_queue`: the empty queue
really yields `false` with no invocation, and a pass that reports `true` really
leaves work pending. -/
theorem C2_witness :
    ProcessEvents (fun _ => []) initialEngine = (initialEngine, false, []) ∧
    ((ProcessEvents (fun e => [e]) { initialEngine with pending := [7] }).2.1 = true ↔
      (ProcessEvents (fun e => [e]) { initialEngine with pending := [7] }).1.pending ≠ []) :=
  ⟨(C2_processEvents_empty_queue (fun _ => []) initialEngine).1 rfl,
   (C2_processEvents_empty_queue (fun e => [e]) { initialEngine with pending := [7] }).2⟩

/-- Trace well-formedness from pass index `n` on: the trace is exactly an
alternation `processed n, tick n, processed (n+1), tick (n+1), …` — every pass
is followed by exactly one tick invocation for that same pass, and pass indices
are strictly sequential. -/
def ticksPerPass : Nat → List TraceEv → Bool
  | _, [] => true
  | n, TraceEv.processed m _ :: TraceEv.tick m' _ :: rest =>
      (m == n) && (m' == n) && ticksPerPass (n + 1) rest
  | _, _ => false

/-- No pass with index greater than `n` appears in the trace. -/
def noPassAfter (n : Nat) (tr : List TraceEv) : Bool :=
  tr.all fun e =>
    match e with
    | TraceEv.processed m _ => decide (m ≤ n)
    | TraceEv.tick _ _ => true

/-- The trace contains the event-processing part of pass `n`. -/
def hasPass (n : Nat) (tr : List TraceEv) : Bool :=
  tr.any fun e =>
    match e with
    | TraceEv.processed m _ => m == n
    | TraceEv.tick _ _ => false

/-- The trace contains the tick invocation of pass `n`. -/
def hasTick (n : Nat) (tr : List TraceEv) : Bool :=
  tr.any fun e =>
    match e with
    | TraceEv.processed _ _ => false
    | TraceEv.tick m _ => m == n

/-- Every tick invocation in the trace happened with the running flag up. -/
def allTicksRunning (tr : List TraceEv) : Bool :=
  tr.all fun e =>
    match e with
    | TraceEv.processed _ _ => true
    | TraceEv.tick _ st => st.loopRunning

theorem processEvents_stopRequested (spawn : Nat → List Nat) (s : Engine) :
    (ProcessEvents spawn s).1.stopRequested = s.stopRequested := rfl

theorem processEvents_loopRunning (spawn : Nat → List Nat) (s : Engine) :
    (ProcessEvents spawn s).1.loopRunning = s.loopRunning := rfl

theorem loopIteration_stop_mono (spawn : Nat → List Nat) (host : Nat → Bool)
    (n : Nat) (s : Engine) (h : s.stopRequested = true) :
    (loopIteration spawn host n s).stopRequested = true := by
  unfold loopIteration
  by_cases hn : host n
  · simp [hn, StopEventLoop]
  · simp [hn, ProcessEvents, h]

theorem loopIteration_loopRunning (spawn : Nat → List Nat) (host : Nat → Bool)
    (n : Nat) (s : Engine) :
    (loopIteration spawn host n s).loopRunning = s.loopRunning := by
  unfold loopIteration
  by_cases hn : host n
  · simp [hn, StopEventLoop, ProcessEvents]
  · simp [hn, ProcessEvents]

theorem runLoopAux_stop_exits (spawn : Nat → List Nat) (host : Nat → Bool)
    (fuel n : Nat) (s : Engine) (h : s.stopRequested = true) :
    runLoopAux spawn host (fuel + 1) n s =
      some ({ s with loopRunning := false, stopRequested := false }, []) := by
  simp [runLoopAux, h]

theorem runLoopAux_stop_trace_nil (spawn : Nat → List Nat) (host : Nat → Bool) :
    ∀ fuel n (s : Engine) pr, s.stopRequested = true →
      runLoopAux spawn host fuel n s = some pr → pr.2 = [] := by
  intro fuel n s pr hstop h
  cases fuel with
  | zero => simp [runLoopAux] at h
  | succ k =>
    rw [runLoopAux_stop_exits spawn host k n s hstop] at h
    cases h
    rfl

theorem runLoopAux_final_flags (spawn : Nat → List Nat) (host : Nat → Bool) :
    ∀ fuel n (s : Engine) pr, runLoopAux spawn host fuel n s = some pr →
      pr.1.loopRunning = false ∧ pr.1.stopRequested = false := by
  intro fuel
  induction fuel with
  | zero => intro n s pr h; simp [runLoopAux] at h
  | succ k ih =>
    intro n s pr h
    rw [runLoopAux] at h
    by_cases hc : (s.stopRequested || s.pending.isEmpty) = true
    · rw [if_pos hc] at h
      cases h
      exact ⟨rfl, rfl⟩
    · rw [if_neg hc] at h
      cases hrec : runLoopAux spawn host k (n + 1) (loopIteration spawn host n s) with
      | none => rw [hrec] at h; cases h
      | some pr' =>
        rw [hrec] at h
        cases h
        exact ih (n + 1) (loopIteration spawn host n s) pr' hrec

theorem runLoopAux_ticksPerPass (spawn : Nat → List Nat) (host : Nat → Bool) :
    ∀ fuel n (s : Engine) pr, runLoopAux spawn host fuel n s = some pr →
      ticksPerPass n pr.2 = true := by
  intro fuel
  induction fuel with
  | zero => intro n s pr h; simp [runLoopAux] at h
  | succ k ih =>
    intro n s pr h
    rw [runLoopAux] at h
    by_cases hc : (s.stopRequested || s.pending.isEmpty) = true
    · rw [if_pos hc] at h
      cases h
      rfl
    · rw [if_neg hc] at h
      cases hrec : runLoopAux spawn host k (n + 1) (loopIteration spawn host n s) with
      | none => rw [hrec] at h; cases h
      | some pr' =>
        rw [hrec] at h
        cases h
        have := ih (n + 1) (loopIteration spawn host n s) pr' hrec
        simp [ticksPerPass, this]

theorem runLoopAux_pass_imp_tick (spawn : Nat → List Nat) (host : Nat → Bool) :
    ∀ fuel m (s : Engine) pr, runLoopAux spawn host fuel m s = some pr →
      ∀ n, hasPass n pr.2 = true → hasTick n pr.2 = true := by
  intro fuel
  induction fuel with
  | zero => intro m s pr h; simp [runLoopAux] at h
  | succ k ih =>
    intro m s pr h n
    rw [runLoopAux] at h
    by_cases hc : (s.stopRequested || s.pending.isEmpty) = true
    · rw [if_pos hc] at h
      cases h
      intro hp
      simp [hasPass] at hp
    · rw [if_neg hc] at h
      cases hrec : runLoopAux spawn host k (m + 1) (loopIteration spawn host m s) with
      | none => rw [hrec] at h; cases h
      | some pr' =>
        rw [hrec] at h
        cases h
        intro hp
        simp only [hasPass, List.any_cons] at hp
        simp only [hasTick, List.any_cons]
        by_cases hm : (m == n) = true
        · simp [hm]
        · simp only [hm, Bool.false_or] at hp
          have := ih (m + 1) (loopIteration spawn host m s) pr' hrec n hp
          simp [hasTick] at this
          simp [this]

theorem runLoopAux_noPassAfter (spawn : Nat → List Nat) (host : Nat → Bool)
    (n : Nat) (hn : host n = true) :
    ∀ fuel m (s : Engine) pr, m ≤ n → runLoopAux spawn host fuel m s = some pr →
      noPassAfter n pr.2 = true := by
  intro fuel
  induction fuel with
  | zero => intro m s pr _ h; simp [runLoopAux] at h
  | succ k ih =>
    intro m s pr hm h
    rw [runLoopAux] at h
    by_cases hc : (s.stopRequested || s.pending.isEmpty) = true
    · rw [if_pos hc] at h
      cases h
      rfl
    · rw [if_neg hc] at h
      cases hrec : runLoopAux spawn host k (m + 1) (loopIteration spawn host m s) with
      | none => rw [hrec] at h; cases h
      | some pr' =>
        rw [hrec] at h
        cases h
        by_cases hmn : m = n
        · subst hmn
          have hstop : (loopIteration spawn host m s).stopRequested = true := by
            unfold loopIteration
            simp [hn, StopEventLoop]
          have htail : pr'.2 = [] :=
            runLoopAux_stop_trace_nil spawn host k (m + 1) _ pr' hstop hrec
          simp [noPassAfter, htail]
        · have hml : m + 1 ≤ n := Nat.lt_of_le_of_ne hm hmn
          have := ih (m + 1) (loopIteration spawn host m s) pr' hml hrec
          simp only [noPassAfter, List.all_cons] at this ⊢
          simp [this, Nat.le_of_lt (Nat.lt_of_lt_of_le (Nat.lt_succ_self m) hml)]

theorem runLoopAux_allTicksRunning (spawn : Nat → List Nat) (host : Nat → Bool) :
    ∀ fuel n (s : Engine) pr, s.loopRunning = true →
      runLoopAux spawn host fuel n s = some pr → allTicksRunning pr.2 = true := by
  intro fuel
  induction fuel with
  | zero => intro n s pr _ h; simp [runLoopAux] at h
  | succ k ih =>
    intro n s pr hrun h
    rw [runLoopAux] at h
    by_cases hc : (s.stopRequested || s.pending.isEmpty) = true
    · rw [if_pos hc] at h
      cases h
      rfl
    · rw [if_neg hc] at h
      cases hrec : runLoopAux spawn host k (n + 1) (loopIteration spawn host n s) with
      | none => rw [hrec] at h; cases h
      | some pr' =>
        rw [hrec] at h
        cases h
        have hrun' : (loopIteration spawn host n s).loopRunning = true := by
          rw [loopIteration_loopRunning]; exact hrun
        have := ih (n + 1) (loopIteration spawn host n s) pr' hrun' hrec
        simp only [allTicksRunning, List.all_cons] at this ⊢
        simp [this, processEvents_loopRunning, hrun]

/-- Sample engine collaborator for concrete runs: every processed event
re-spawns itself, so events keep coming forever. -/
def sampleSpawnSelf : Nat → List Nat := fun e => [e]

/-- Sample engine collaborator for concrete runs: processed events spawn
nothing. -/
def sampleSpawnNone : Nat → List Nat := fun _ => []

/-- Sample host tick callback that calls `StopEventLoop` during the tick of
pass 1 and otherwise does nothing. -/
def sampleHostStopAt1 : Nat → Bool := fun k => k == 1

/-- Sample host tick callback that never calls `StopEventLoop`. -/
def sampleHostNever : Nat → Bool := fun _ => false

/-- Engine state with one pending event, loop not running. -/
def sampleEngine5 : Engine := { initialEngine with pending := [5] }

/-- `sampleEngine5` as seen inside `RunEventLoop` (running flag up). -/
def sampleEngine5Run : Engine := { sampleEngine5 with loopRunning := true }

/-- The trace of `RunEventLoop sampleSpawnSelf sampleHostStopAt1 4
sampleEngine5`: two passes, the second tick requests the stop. -/
def sampleTraceStopped : List TraceEv :=
  [TraceEv.processed 0 [5], TraceEv.tick 0 sampleEngine5Run,
   TraceEv.processed 1 [5], TraceEv.tick 1 sampleEngine5Run]

/-- Engine state with two pending events that spawn nothing. -/
def sampleEngine12 : Engine := { initialEngine with pending := [1, 2] }

/-- The trace of `RunEventLoop sampleSpawnNone sampleHostNever 3
sampleEngine12`: a single pass drains the queue. -/
def sampleTraceDrained : List TraceEv :=
  [TraceEv.processed 0 [1, 2], TraceEv.tick 0 { initialEngine with loopRunning := true }]

/-- Claim C3: if `StopEventLoop` is called during the tick of pass `n` of
`RunEventLoop`, the loop completes the in-flight pass — whenever pass `n`'s
event processing is in the trace, so is its tick — starts no pass after `n`,
and `RunEventLoop` returns; `StopEventLoop` itself only raises the
`stop_requested` flag without blocking, so the loop's running flag is untouched
and the loop is not guaranteed to have stopped when `StopEventLoop` returns. -/
theorem C3_stop_during_tick (spawn : Nat → List Nat) (host : Nat → Bool)
    (n fuel : Nat) (s : Engine) (pr : Engine × List TraceEv)
    (hn : host n = true) (h : RunEventLoop spawn host fuel s = some pr) :
    noPassAfter n pr.2 = true ∧
    (hasPass n pr.2 = true → hasTick n pr.2 = true) ∧
    (∀ t : Engine, StopEventLoop t = { t with stopRequested := true } ∧
      (StopEventLoop t).loopRunning = t.loopRunning) := by
  refine ⟨?_, ?_, fun t => ⟨rfl, rfl⟩⟩
  · exact runLoopAux_noPassAfter spawn host n hn fuel 0 _ pr (Nat.zero_le n) h
  · exact runLoopAux_pass_imp_tick spawn host fuel 0 _ pr h n

/-- Concrete instantiation of `C3_stop_during_tick`: the host requests the stop
at pass 1 of a run whose events would otherwise keep coming forever; the run
returns after pass 1. -/
theorem C3_witness :
    sampleHostStopAt1 1 = true ∧
    (noPassAfter 1 sampleTraceStopped = true ∧
     (hasPass 1 sampleTraceStopped = true → hasTick 1 sampleTraceStopped = true) ∧
     (∀ t : Engine, StopEventLoop t = { t with stopRequested := true } ∧
       (StopEventLoop t).loopRunning = t.loopRunning)) :=
  ⟨by decide,
   C3_stop_during_tick sampleSpawnSelf sampleHostStopAt1 1 4 sampleEngine5
     (sampleEngine5, sampleTraceStopped) (by decide) (by decide)⟩

/-- Claim C4: during every execution of `RunEventLoop`, the tick callback runs
exactly once per pass, each tick comes right after that pass's event
processing, and passes are strictly sequential (pass indices 0, 1, 2, … in
order, each pass closed by its tick before the next begins — no overlap). -/
theorem C4_one_tick_per_pass (spawn : Nat → List Nat) (host : Nat → Bool)
    (fuel : Nat) (s : Engine) (pr : Engine × List TraceEv)
    (h : RunEventLoop spawn host fuel s = some pr) :
    ticksPerPass 0 pr.2 = true :=
  runLoopAux_ticksPerPass spawn host fuel 0 _ pr h

/-- Concrete instantiation of `C4_one_tick_per_pass` on a run that drains two
events in one pass. -/
theorem C4_witness : ticksPerPass 0 sampleTraceDrained = true :=
  C4_one_tick_per_pass sampleSpawnNone sampleHostNever 3 sampleEngine12
    (initialEngine, sampleTraceDrained) (by decide)

/-- Claim C5: during a run, `stop_requested` only ever goes from `false` to
`true` (no loop iteration clears it); when the driver observes it `true` at an
iteration boundary it exits at once, resetting both `running` and
`stop_requested` to `false`; and whenever `RunEventLoop` returns, both flags
are `false`, so a subsequent `RunEventLoop` starts with fresh state. -/
theorem C5_stop_flag_protocol (spawn : Nat → List Nat) (host : Nat → Bool)
    (fuel : Nat) (s : Engine) (pr : Engine × List TraceEv)
    (h : RunEventLoop spawn host fuel s = some pr) :
    (∀ m (t : Engine), t.stopRequested = true →
      (loopIteration spawn host m t).stopRequested = true) ∧
    (∀ f m (t : Engine), t.stopRequested = true →
      runLoopAux spawn host (f + 1) m t =
        some ({ t with loopRunning := false, stopRequested := false }, [])) ∧
    pr.1.loopRunning = false ∧ pr.1.stopRequested = false := by
  have hf := runLoopAux_final_flags spawn host fuel 0 _ pr h
  exact ⟨fun m t ht => loopIteration_stop_mono spawn host m t ht,
         fun f m t ht => runLoopAux_stop_exits spawn host f m t ht,
         hf.1, hf.2⟩

/-- Concrete instantiation of `C5_stop_flag_protocol` on the stopped run: the
final state has both flags down. -/
theorem C5_witness :
    (∀ m (t : Engine), t.stopRequested = true →
      (loopIteration sampleSpawnSelf sampleHostStopAt1 m t).stopRequested = true) ∧
    (∀ f m (t : Engine), t.stopRequested = true →
      runLoopAux sampleSpawnSelf sampleHostStopAt1 (f + 1) m t =
        some ({ t with loopRunning := false, stopRequested := false }, [])) ∧
    sampleEngine5.loopRunning = false ∧ sampleEngine5.stopRequested = false :=
  C5_stop_flag_protocol sampleSpawnSelf sampleHostStopAt1 4 sampleEngine5
    (sampleEngine5, sampleTraceStopped) (by decide)

/-- Claim C10: `EventLoopIsRunning` is `false` before `Initialize` and right
after it, a bare `ProcessEvents` pass never changes it (so it stays `false`
between `RunEventLoop` invocations), it is `true` at every tick taken while
`RunEventLoop` executes the loop, and it is `false` again once `RunEventLoop`
has returned. -/
theorem C10_event_loop_running_flag (spawn : Nat → List Nat) (host : Nat → Bool)
    (fuel : Nat) (s : Engine) (pr : Engine × List TraceEv)
    (h : RunEventLoop spawn host fuel s = some pr) :
    EventLoopIsRunning initialEngine = false ∧
    EventLoopIsRunning (InitializeEngine initialEngine) = false ∧
    (∀ t : Engine, EventLoopIsRunning (ProcessEvents spawn t).1 = EventLoopIsRunning t) ∧
    allTicksRunning pr.2 = true ∧
    EventLoopIsRunning pr.1 = false := by
  refine ⟨rfl, rfl, fun t => rfl, ?_, ?_⟩
  · exact runLoopAux_allTicksRunning spawn host fuel 0 _ pr rfl h
  · exact (runLoopAux_final_flags spawn host fuel 0 _ pr h).1

/-- Concrete instantiation of `C10_event_loop_running_flag` on the drained
run: the single tick sees the flag up, the final state has it down. -/
theorem C10_witness :
    EventLoopIsRunning initialEngine = false ∧
    EventLoopIsRunning (InitializeEngine initialEngine) = false ∧
    (∀ t : Engine, EventLoopIsRunning (ProcessEvents sampleSpawnNone t).1 =
      EventLoopIsRunning t) ∧
    allTicksRunning sampleTraceDrained = true ∧
    EventLoopIsRunning initialEngine = false :=
  C10_event_loop_running_flag sampleSpawnNone sampleHostNever 3 sampleEngine12
    (initialEngine, sampleTraceDrained) (by decide)

/-- Claim C6: `Deinitialize` returns 0 on a clean shutdown (no exit code was
propagated from unfinished work), and calling it while the Lifecycle Controller
is already `Uninitialized` is a no-op that leaves all state unchanged and
returns 0. -/
theorem C6_deinitialize_status (s : Engine) :
    (s.lifecycle = LifecycleState.Running → s.exitCode = 0 →
      (DeinitializeEngine s).2 = 0) ∧
    (s.lifecycle = LifecycleState.Uninitialized → DeinitializeEngine s = (s, 0)) := by
  constructor
  · intro hr hc
    simp [DeinitializeEngine, hr, hc]
  · intro hu
    simp [DeinitializeEngine, hu]

/-- Concrete instantiation of `C6_deinitialize_status`: a clean shutdown of a
freshly initialized engine returns 0, and deinitializing the uninitialized
engine is a no-op returning 0. -/
theorem C6_witness :
    (DeinitializeEngine (InitializeEngine initialEngine)).2 = 0 ∧
    DeinitializeEngine initialEngine = (initialEngine, 0) :=
  ⟨(C6_deinitialize_status (InitializeEngine initialEngine)).1 (by decide) (by decide),
   (C6_deinitialize_status initialEngine).2 (by decide)⟩

/-- Script text handed to `Evaluate`, as the engine collaborator sees it:
whether it parses (`valid`), the value the run yields, and the asynchronous
callbacks the execution enqueues into the pending queue. -/
structure Script where
  valid : Bool
  value : Nat
  spawns : List Nat
deriving DecidableEq

/-- Modelled from the spec: `Evaluate` — parses and runs script text
synchronously; yields the result value, or an empty result if the engine is
not running or compilation/execution failed (never aborting the host process,
and touching no engine state on failure).  Asynchronous callbacks enqueued by
the execution go into the pending queue and are not run here: the third
component lists the callbacks invoked during the call, always `[]`. -/
def Evaluate (sc : Script) (s : Engine) : Option Nat × Engine × List Nat :=
  if s.lifecycle = LifecycleState.Running then
    if sc.valid then
      (some sc.value, { s with pending := s.pending ++ sc.spawns }, [])
    else (none, s, [])
  else (none, s, [])

/-- Modelled from the spec: `Run` — loads the file contents and delegates to
the same evaluate-and-return contract; a file that cannot be read yields an
empty result. -/
def Run (files : String → Option Script) (path : String) (s : Engine) :
    Option Nat × Engine × List Nat :=
  match files path with
  | none => (none, s, [])
  | some sc => Evaluate sc s

/-- Modelled from the spec: `RegisterModule` — registers a native module under
`name` in the name-keyed module registry; if `target` is non-empty it
additionally exposes the module as a named binding on the root object (the
global-binding table) at registration time.  `callback` and `priv` are the
opaque initializer and private data. -/
def RegisterModule (name : String) (callback : Nat) (priv : Nat)
    (target : String) (s : Engine) : Engine :=
  { s with modules := name :: s.modules,
           globals := if target = "" then s.globals else target :: s.globals }

/-- Modelled from the spec: evaluating `typeof m` for a name `m` consults the
root object's bindings — it reports whether the global binding exists, or an
empty result if the engine is not running. -/
def evalTypeofDefined (name : String) (s : Engine) : Option Bool :=
  if s.lifecycle = LifecycleState.Running then some (s.globals.contains name)
  else none

/-- Claim C7: while the engine is running, `Evaluate` of syntactically invalid
source yields an empty result and leaves the engine state (in particular the
Engine Handle) completely untouched, so a subsequent `Evaluate` of valid text
still succeeds and returns its value.  (The model is a total function: no code
path aborts the host process.) -/
theorem C7_evaluate_invalid (sc sc2 : Script) (s : Engine)
    (hr : s.lifecycle = LifecycleState.Running) (hv : sc.valid = false)
    (hv2 : sc2.valid = true) :
    (Evaluate sc s).1 = none ∧
    (Evaluate sc s).2.1 = s ∧
    environment (Evaluate sc s).2.1 = environment s ∧
    isolate (Evaluate sc s).2.1 = isolate s ∧
    (Evaluate sc2 (Evaluate sc s).2.1).1 = some sc2.value := by
  have hstate : (Evaluate sc s).2.1 = s := by
    simp [Evaluate, hr, hv]
  refine ⟨by simp [Evaluate, hr, hv], hstate, by rw [hstate], by rw [hstate], ?_⟩
  rw [hstate]
  simp [Evaluate, hr, hv2]

/-- Concrete instantiation of `C7_evaluate_invalid`: an invalid script on the
freshly initialized engine yields no value and the valid script `21 * 2`
afterwards still yields 42. -/
theorem C7_witness :
    (Evaluate ⟨false, 0, []⟩ (InitializeEngine initialEngine)).1 = none ∧
    (Evaluate ⟨false, 0, []⟩ (InitializeEngine initialEngine)).2.1 =
      InitializeEngine initialEngine ∧
    environment (Evaluate ⟨false, 0, []⟩ (InitializeEngine initialEngine)).2.1 =
      environment (InitializeEngine initialEngine) ∧
    isolate (Evaluate ⟨false, 0, []⟩ (InitializeEngine initialEngine)).2.1 =
      isolate (InitializeEngine initialEngine) ∧
    (Evaluate ⟨true, 42, []⟩
      (Evaluate ⟨false, 0, []⟩ (InitializeEngine initialEngine)).2.1).1 = some 42 :=
  C7_evaluate_invalid ⟨false, 0, []⟩ ⟨true, 42, []⟩ (InitializeEngine initialEngine)
    (by decide) (by decide) (by decide)

/-- Claim C8: asynchronous callbacks enqueued by a script run through
`Evaluate` or `Run` are not invoked by those calls — both return with an empty
invocation list and with the enqueued callbacks appended to the pending queue —
and it is `ProcessEvents` (hence also `RunEventLoop`, whose passes are
`ProcessEvents` passes) that drains them: a following `ProcessEvents` pass
invokes exactly the queued callbacks. -/
theorem C8_async_callbacks_stay_pending (files : String → Option Script)
    (path : String) (sc : Script) (s : Engine)
    (hr : s.lifecycle = LifecycleState.Running) (hv : sc.valid = true)
    (hf : files path = some sc) :
    (Evaluate sc s).2.2 = [] ∧
    (Evaluate sc s).2.1.pending = s.pending ++ sc.spawns ∧
    (Run files path s).2.2 = [] ∧
    (Run files path s).2.1.pending = s.pending ++ sc.spawns ∧
    (∀ spawn, (ProcessEvents spawn (Evaluate sc s).2.1).2.2 =
      s.pending ++ sc.spawns) := by
  have hrun : Run files path s = Evaluate sc s := by
    simp [Run, hf]
  refine ⟨by simp [Evaluate, hr, hv], by simp [Evaluate, hr, hv], ?_, ?_, ?_⟩
  · rw [hrun]; simp [Evaluate, hr, hv]
  · rw [hrun]; simp [Evaluate, hr, hv]
  · intro spawn
    simp [ProcessEvents, Evaluate, hr, hv]

/-- Concrete instantiation of `C8_async_callbacks_stay_pending`: a script that
enqueues callbacks 8 and 9 returns with them pending, and the next
`ProcessEvents` pass invokes exactly those two. -/
theorem C8_witness :
    (Evaluate ⟨true, 0, [8, 9]⟩ (InitializeEngine initialEngine)).2.2 = [] ∧
    (Evaluate ⟨true, 0, [8, 9]⟩ (InitializeEngine initialEngine)).2.1.pending =
      (InitializeEngine initialEngine).pending ++ [8, 9] ∧
    (Run (fun _ => some ⟨true, 0, [8, 9]⟩) "a.js" (InitializeEngine initialEngine)).2.2 = [] ∧
    (Run (fun _ => some ⟨true, 0, [8, 9]⟩) "a.js" (InitializeEngine initialEngine)).2.1.pending =
      (InitializeEngine initialEngine).pending ++ [8, 9] ∧
    (∀ spawn, (ProcessEvents spawn
      (Evaluate ⟨true, 0, [8, 9]⟩ (InitializeEngine initialEngine)).2.1).2.2 =
        (InitializeEngine initialEngine).pending ++ [8, 9]) :=
  C8_async_callbacks_stay_pending (fun _ => some ⟨true, 0, [8, 9]⟩) "a.js"
    ⟨true, 0, [8, 9]⟩ (InitializeEngine initialEngine) (by decide) (by decide) rfl

/-- Claim C9: `RegisterModule` with a non-empty `target` exposes the module as
a named binding on the root object at registration time — evaluating
`typeof target` right afterwards finds the binding — while with an empty
`target` the global-binding table is left unchanged. -/
theorem C9_register_module_target (name target : String)
    (callback priv : Nat) (s : Engine)
    (hr : s.lifecycle = LifecycleState.Running) :
    (target ≠ "" →
      (RegisterModule name callback priv target s).globals.contains target = true ∧
      evalTypeofDefined target (RegisterModule name callback priv target s) = some true) ∧
    (target = "" →
      (RegisterModule name callback priv target s).globals = s.globals) := by
  constructor
  · intro ht
    have hg : (RegisterModule name callback priv target s).globals =
        target :: s.globals := by
      simp [RegisterModule, ht]
    constructor
    · simp [hg]
    · have hl : (RegisterModule name callback priv target s).lifecycle =
          LifecycleState.Running := hr
      simp [evalTypeofDefined, hl, hg]
  · intro ht
    simp [RegisterModule, ht]

/-- Concrete instantiation of `C9_register_module_target`: registering module
`m` with target `m` on the freshly initialized engine makes `typeof m` report
the binding, and an empty target leaves the root object's bindings alone. -/
theorem C9_witness :
    ((RegisterModule "m" 1 0 "m" (InitializeEngine initialEngine)).globals.contains "m"
        = true ∧
      evalTypeofDefined "m" (RegisterModule "m" 1 0 "m" (InitializeEngine initialEngine)) =
        some true) ∧
    (RegisterModule "m" 1 0 "" (InitializeEngine initialEngine)).globals =
      (InitializeEngine initialEngine).globals :=
  ⟨(C9_register_module_target "m" "m" 1 0 (InitializeEngine initialEngine)
      (by decide)).1 (by decide),
   (C9_register_module_target "m" "" 1 0 (InitializeEngine initialEngine)
      (by decide)).2 rfl⟩

end NodeLib
